import Mathlib

/-!
# Verification of the date tools and tool-call relay of `ai-agents-tool-usage`

This file gives a shallow embedding of the calendar utilities
(`get_monday`, `get_week_info`, `get_day_of_week`, `get_current_date`)
and of the tool-call relay (`execute_tool`, `chat_with_claude`) of
`src/simple_ai_tools.py`, and proves the specified properties about them.

Modelling conventions:

* Python `datetime` dates are modelled by `CalendarDate` (a year/month/day
  triple of naturals) on the proleptic Gregorian calendar, exactly the
  calendar implemented by CPython's `datetime` module: `toOrdinal` is
  `date.toordinal()` (day 1 = 0001-01-01), `pyWeekday` is `date.weekday()`
  (Monday = 0 … Sunday = 6), and the valid range is `MINYEAR = 1` to
  `MAXYEAR = 9999` (ordinals 1 to 3652059).
* `date ± timedelta(days=k)` is modelled by `k` applications of the
  previous/next-calendar-day function (`subDays` / `addDays`), guarded by
  the range check that makes Python raise `OverflowError` when the result
  leaves `[date.min, date.max]` (`pyDateSub` / `pyDateAdd`).
* `datetime.strptime(s, "%Y-%m-%d")` is modelled by `parseDate`: a run of
  exactly 4 ASCII digits for the year (CPython compiles `%Y` to the regex
  `\d\d\d\d`), runs of 1–2 digits for month and day (`%m`, `%d` compile to
  `\d{1,2}`), separated by literal hyphens, the whole string consumed,
  followed by the constructor's range checks (Unicode digits, accepted by
  CPython's regex `\d`, are outside the model).
  `datetime.strftime("%Y-%m-%d")` is modelled by `formatDate`: the year is
  printed unpadded (the platform strftime emits years below 1000 without
  zero-fill, e.g. `999-12-30`), month and day zero-padded to two digits.
* A Python function that can raise an exception that escapes it is modelled
  with `Except String`: `Except.error msg` is an uncaught exception carrying
  `str(e) = msg`, `Except.ok` a normal return.  `datetime.now()` is modelled
  by an explicit `today` parameter.  Exact CPython `TypeError` texts for bad
  keyword arguments are abstracted to fixed descriptive strings.
-/

namespace SimpleAiTools

/-- A year/month/day triple, the model of a Python `datetime` date. -/
structure CalendarDate where
  year : Nat
  month : Nat
  day : Nat
deriving DecidableEq

/-- CPython `datetime._is_leap`: `year % 4 == 0 and (year % 100 != 0 or year % 400 == 0)`. -/
def isLeap (y : Nat) : Bool :=
  y % 4 == 0 && (y % 100 != 0 || y % 400 == 0)

/-- CPython `datetime._days_in_month` (the `_DAYS_IN_MONTH` table with the
February leap adjustment). -/
def daysInMonth (y m : Nat) : Nat :=
  if m = 2 then (if isLeap y then 29 else 28)
  else if m = 4 ∨ m = 6 ∨ m = 9 ∨ m = 11 then 30
  else 31

/-- CPython `datetime._days_before_month y m`: days in year `y` strictly
before month `m`. -/
def daysBeforeMonth (y : Nat) : Nat → Nat
  | 0 => 0
  | 1 => 0
  | m + 2 => daysBeforeMonth y (m + 1) + daysInMonth y (m + 1)

/-- CPython `datetime._days_before_year y`:
`(y-1)*365 + (y-1)//4 - (y-1)//100 + (y-1)//400`. -/
def daysBeforeYear (y : Nat) : Nat :=
  (y - 1) * 365 + (y - 1) / 4 - (y - 1) / 100 + (y - 1) / 400

/-- `date.toordinal()`: 0001-01-01 is day 1. -/
def toOrdinal (d : CalendarDate) : Nat :=
  daysBeforeYear d.year + daysBeforeMonth d.year d.month + d.day

/-- `date.weekday()`, i.e. `(toordinal() + 6) % 7`: Monday = 0 … Sunday = 6. -/
def pyWeekday (d : CalendarDate) : Nat :=
  (toOrdinal d + 6) % 7

/-- `date.max.toordinal()`, the ordinal of 9999-12-31. -/
def maxOrdinal : Nat := 3652059

/-- The range checks of the `datetime` constructor:
`MINYEAR <= year <= MAXYEAR`, `1 <= month <= 12`, `1 <= day <= days_in_month`. -/
def isValid (d : CalendarDate) : Prop :=
  1 ≤ d.year ∧ d.year ≤ 9999 ∧ 1 ≤ d.month ∧ d.month ≤ 12 ∧
    1 ≤ d.day ∧ d.day ≤ daysInMonth d.year d.month

instance (d : CalendarDate) : Decidable (isValid d) := by
  unfold isValid; infer_instance

/-- The calendar day before `d` (for `d` after 0001-01-01). -/
def prevDay (d : CalendarDate) : CalendarDate :=
  if 2 ≤ d.day then ⟨d.year, d.month, d.day - 1⟩
  else if 2 ≤ d.month then ⟨d.year, d.month - 1, daysInMonth d.year (d.month - 1)⟩
  else ⟨d.year - 1, 12, 31⟩

/-- The calendar day after `d`. -/
def nextDay (d : CalendarDate) : CalendarDate :=
  if d.day + 1 ≤ daysInMonth d.year d.month then ⟨d.year, d.month, d.day + 1⟩
  else if d.month + 1 ≤ 12 then ⟨d.year, d.month + 1, 1⟩
  else ⟨d.year + 1, 1, 1⟩

/-- `k` calendar days before `d` (the value of `d - timedelta(days=k)`). -/
def subDays (d : CalendarDate) : Nat → CalendarDate
  | 0 => d
  | k + 1 => prevDay (subDays d k)

/-- `k` calendar days after `d` (the value of `d + timedelta(days=k)`). -/
def addDays (d : CalendarDate) : Nat → CalendarDate
  | 0 => d
  | k + 1 => nextDay (addDays d k)

/-- `d - timedelta(days=k)`: `none` models the `OverflowError` raised when
the result would fall before `date.min` (ordinal 1). -/
def pyDateSub (d : CalendarDate) (k : Nat) : Option CalendarDate :=
  if k < toOrdinal d then some (subDays d k) else none

/-- `d + timedelta(days=k)`: `none` models the `OverflowError` raised when
the result would fall after `date.max` (ordinal 3652059). -/
def pyDateAdd (d : CalendarDate) (k : Nat) : Option CalendarDate :=
  if toOrdinal d + k ≤ maxOrdinal then some (addDays d k) else none

/-- `date - timedelta(days=date.weekday())`, the Monday computation shared by
`get_monday` and `get_week_info`. -/
def mondayDate (d : CalendarDate) : CalendarDate :=
  subDays d (pyWeekday d)

/-! ## Parsing and formatting (`strptime` / `strftime` with `"%Y-%m-%d"`) -/

/-- ASCII decimal digit test (the model of the `\d` of `strptime`'s regex). -/
def isDigitChar (c : Char) : Bool :=
  48 ≤ c.toNat && c.toNat ≤ 57

/-- Numeric value of an ASCII digit character. -/
def charToDigit (c : Char) : Nat := c.toNat - 48

/-- Character of a decimal digit. -/
def digitToChar : Nat → Char
  | 0 => '0' | 1 => '1' | 2 => '2' | 3 => '3' | 4 => '4'
  | 5 => '5' | 6 => '6' | 7 => '7' | 8 => '8' | _ => '9'

/-- Split off the maximal leading run of ASCII digits. -/
def takeDigits : List Char → List Char × List Char
  | [] => ([], [])
  | c :: cs =>
    if isDigitChar c then
      (c :: (takeDigits cs).1, (takeDigits cs).2)
    else ([], c :: cs)

/-- Decimal value of a digit run. -/
def digitsVal (ds : List Char) : Nat :=
  ds.foldl (fun a c => a * 10 + charToDigit c) 0

/-- The `"%Y-%m-%d"` shape check of `strptime`: an exactly-4-digit year
(`%Y` is the regex `\d\d\d\d`), a literal hyphen, a 1–2 digit month, a
literal hyphen, a 1–2 digit day, end of input. -/
def parseYMD (cs : List Char) : Option (Nat × Nat × Nat) :=
  let p1 := takeDigits cs
  match p1.2 with
  | [] => none
  | c1 :: r2 =>
    if c1 = '-' then
      let p2 := takeDigits r2
      match p2.2 with
      | [] => none
      | c2 :: r4 =>
        if c2 = '-' then
          let p3 := takeDigits r4
          if p3.2 = [] ∧ p1.1.length = 4 ∧
              1 ≤ p2.1.length ∧ p2.1.length ≤ 2 ∧ 1 ≤ p3.1.length ∧ p3.1.length ≤ 2 then
            some (digitsVal p1.1, digitsVal p2.1, digitsVal p3.1)
          else none
        else none
    else none

/-- `datetime.strptime(s, "%Y-%m-%d")`: `none` models `ValueError` (either a
format mismatch or the constructor range checks failing). -/
def parseDate (s : String) : Option CalendarDate :=
  match parseYMD s.toList with
  | some (y, m, d) => if isValid ⟨y, m, d⟩ then some ⟨y, m, d⟩ else none
  | none => none

/-- The digits of the year as `strftime("%Y")` prints them on this platform:
unpadded decimal, so years below 1000 get fewer than four digits. -/
def yearChars (y : Nat) : List Char :=
  if y < 10 then [digitToChar (y % 10)]
  else if y < 100 then [digitToChar (y / 10 % 10), digitToChar (y % 10)]
  else if y < 1000 then
    [digitToChar (y / 100 % 10), digitToChar (y / 10 % 10), digitToChar (y % 10)]
  else [digitToChar (y / 1000 % 10), digitToChar (y / 100 % 10),
    digitToChar (y / 10 % 10), digitToChar (y % 10)]

/-- `date.strftime("%Y-%m-%d")`: unpadded year, zero-padded 2-digit month
and day, separated by hyphens (verified against CPython on this platform:
`datetime(999,12,30).strftime("%Y-%m-%d") = "999-12-30"`). -/
def formatDate (d : CalendarDate) : String :=
  String.mk (yearChars d.year ++ ['-',
    digitToChar (d.month / 10 % 10), digitToChar (d.month % 10), '-',
    digitToChar (d.day / 10 % 10), digitToChar (d.day % 10)])

/-! ## The tool functions of `src/simple_ai_tools.py` -/

/-- The error string returned by the calendar tools on `ValueError`. -/
def invalidDateMsg : String := "Invalid date format. Please use YYYY-MM-DD format."

/-- The `day_names` list of `get_week_info` and `get_day_of_week`. -/
def day_names : List String :=
  ["Monday", "Tuesday", "Wednesday", "Thursday", "Friday", "Saturday", "Sunday"]

/-- `get_monday` of `src/simple_ai_tools.py` (lines 86–101): parse, subtract
`date.weekday()` days, format.  `Except.error` models an uncaught exception
(only `OverflowError` could escape the `except ValueError`; it is proved
below never to occur). -/
def get_monday (date_str : String) : Except String String :=
  match parseDate date_str with
  | none => Except.ok invalidDateMsg
  | some date =>
    match pyDateSub date (pyWeekday date) with
    | none => Except.error "date value out of range"
    | some monday => Except.ok (formatDate monday)

/-- `get_current_date` (lines 103–105), with `datetime.now()` supplied as the
`today` parameter. -/
def get_current_date (today : String) : String := today

/-- The body of `get_week_info`'s `for i in range(7)` loop: compute
`monday + timedelta(days=i)` and render `f"{day_names[i]}: {day}"` for each
`i` of the list, stopping with `none` (an uncaught `OverflowError`) at the
first out-of-range addition. -/
def weekLines (monday : CalendarDate) : List Nat → Option (List String)
  | [] => some []
  | i :: rest =>
    match pyDateAdd monday i with
    | none => none
    | some day =>
      match weekLines monday rest with
      | none => none
      | some ls => some ((day_names.getD i "" ++ ": " ++ formatDate day) :: ls)

/-- `get_week_info` of `src/simple_ai_tools.py` (lines 107–122). -/
def get_week_info (date_str : String) : Except String String :=
  match parseDate date_str with
  | none => Except.ok invalidDateMsg
  | some date =>
    match pyDateSub date (pyWeekday date) with
    | none => Except.error "date value out of range"
    | some monday =>
      match weekLines monday (List.range 7) with
      | none => Except.error "date value out of range"
      | some week_days =>
        Except.ok ("Week containing " ++ date_str ++ ":\n" ++
          String.intercalate "\n" week_days)

/-- `get_day_of_week` of `src/simple_ai_tools.py` (lines 124–131). -/
def get_day_of_week (date_str : String) : Except String String :=
  match parseDate date_str with
  | none => Except.ok invalidDateMsg
  | some date =>
    Except.ok (date_str ++ " is a " ++ day_names.getD (pyWeekday date) "")

/-! ## Arithmetic lemmas about the Gregorian calendar embedding -/

set_option maxHeartbeats 1000000 in
theorem daysBeforeYear_succ_leap (y : Nat) (hy : 1 ≤ y) (h : isLeap y = true) :
    daysBeforeYear (y + 1) = daysBeforeYear y + 366 := by
  unfold isLeap at h
  simp only [Bool.and_eq_true, beq_iff_eq, Bool.or_eq_true, bne_iff_ne] at h
  unfold daysBeforeYear
  omega

set_option maxHeartbeats 1000000 in
theorem daysBeforeYear_succ_nonleap (y : Nat) (hy : 1 ≤ y) (h : isLeap y = false) :
    daysBeforeYear (y + 1) = daysBeforeYear y + 365 := by
  have h2 : ¬(isLeap y = true) := by simp [h]
  unfold isLeap at h2
  simp only [Bool.and_eq_true, beq_iff_eq, Bool.or_eq_true, bne_iff_ne] at h2
  unfold daysBeforeYear
  omega

theorem daysBeforeYear_of_le_one (y : Nat) (hy : y ≤ 1) : daysBeforeYear y = 0 := by
  interval_cases y <;> rfl

theorem daysBeforeYear_ten_thousand : daysBeforeYear 10000 = 3652059 := by
  norm_num [daysBeforeYear]

theorem daysInMonth_pos (y m : Nat) : 1 ≤ daysInMonth y m := by
  unfold daysInMonth
  split
  · split <;> omega
  · split <;> omega

theorem daysInMonth_twelve (y : Nat) : daysInMonth y 12 = 31 := rfl

theorem daysBeforeMonth_succ (y m : Nat) (hm : 1 ≤ m) :
    daysBeforeMonth y (m + 1) = daysBeforeMonth y m + daysInMonth y m := by
  match m, hm with
  | m + 1, _ => rfl

theorem daysBeforeMonth_twelve_sum (y : Nat) : daysBeforeMonth y 12 =
    0 + daysInMonth y 1 + daysInMonth y 2 + daysInMonth y 3 + daysInMonth y 4 +
      daysInMonth y 5 + daysInMonth y 6 + daysInMonth y 7 + daysInMonth y 8 +
      daysInMonth y 9 + daysInMonth y 10 + daysInMonth y 11 := rfl

theorem daysBeforeMonth_twelve_leap (y : Nat) (h : isLeap y = true) :
    daysBeforeMonth y 12 = 335 := by
  have hc := daysBeforeMonth_twelve_sum y
  have h2 : daysInMonth y 2 = 29 := by simp [daysInMonth, h]
  rw [h2] at hc
  rw [hc]
  norm_num [daysInMonth]

theorem daysBeforeMonth_twelve_nonleap (y : Nat) (h : isLeap y = false) :
    daysBeforeMonth y 12 = 334 := by
  have hc := daysBeforeMonth_twelve_sum y
  have h2 : daysInMonth y 2 = 28 := by simp [daysInMonth, h]
  rw [h2] at hc
  rw [hc]
  norm_num [daysInMonth]

theorem toOrdinal_pos (d : CalendarDate) (h : isValid d) : 1 ≤ toOrdinal d := by
  obtain ⟨-, -, -, -, h5, -⟩ := h
  unfold toOrdinal
  omega

theorem toOrdinal_mk (y m dd : Nat) :
    toOrdinal ⟨y, m, dd⟩ = daysBeforeYear y + daysBeforeMonth y m + dd := rfl

theorem isValid_mk (y m dd : Nat) :
    isValid ⟨y, m, dd⟩ ↔
      1 ≤ y ∧ y ≤ 9999 ∧ 1 ≤ m ∧ m ≤ 12 ∧ 1 ≤ dd ∧ dd ≤ daysInMonth y m :=
  Iff.rfl

/-- Stepping one day back decreases the ordinal by one and stays valid. -/
theorem prevDay_spec (d : CalendarDate) (hv : isValid d) (ho : 2 ≤ toOrdinal d) :
    isValid (prevDay d) ∧ toOrdinal (prevDay d) = toOrdinal d - 1 := by
  obtain ⟨y, m, dd⟩ := d
  rw [isValid_mk] at hv
  obtain ⟨h1, h2, h3, h4, h5, h6⟩ := hv
  rw [toOrdinal_mk] at ho
  unfold prevDay
  dsimp only
  split
  next hday =>
    rw [isValid_mk, toOrdinal_mk, toOrdinal_mk]
    exact ⟨⟨h1, h2, h3, h4, by omega, by omega⟩, by omega⟩
  next hday =>
    split
    next hmonth =>
      have hsucc := daysBeforeMonth_succ y (m - 1) (by omega)
      have hmeq : m - 1 + 1 = m := by omega
      rw [hmeq] at hsucc
      rw [isValid_mk, toOrdinal_mk, toOrdinal_mk]
      exact ⟨⟨h1, h2, by omega, by omega, daysInMonth_pos y (m - 1), le_refl _⟩, by omega⟩
    next hmonth =>
      -- day 1 of month 1: roll back to December 31 of the previous year
      have hm1 : m = 1 := by omega
      have hd1 : dd = 1 := by omega
      subst hm1 hd1
      have hdbm : daysBeforeMonth y 1 = 0 := rfl
      rw [hdbm] at ho
      have hy2 : 2 ≤ y := by
        by_contra hcon
        have := daysBeforeYear_of_le_one y (by omega)
        omega
      have hd31 : daysInMonth (y - 1) 12 = 31 := daysInMonth_twelve (y - 1)
      have hyeq : y - 1 + 1 = y := by omega
      rw [isValid_mk, toOrdinal_mk, toOrdinal_mk, hdbm, hd31]
      cases hL : isLeap (y - 1) with
      | true =>
        have hsucc := daysBeforeYear_succ_leap (y - 1) (by omega) hL
        have htw := daysBeforeMonth_twelve_leap (y - 1) hL
        rw [hyeq] at hsucc
        exact ⟨⟨by omega, by omega, by omega, by omega, by omega, by omega⟩, by omega⟩
      | false =>
        have hsucc := daysBeforeYear_succ_nonleap (y - 1) (by omega) hL
        have htw := daysBeforeMonth_twelve_nonleap (y - 1) hL
        rw [hyeq] at hsucc
        exact ⟨⟨by omega, by omega, by omega, by omega, by omega, by omega⟩, by omega⟩

/-- Stepping one day forward increases the ordinal by one and stays valid
(as long as the result does not pass `date.max`). -/
theorem nextDay_spec (d : CalendarDate) (hv : isValid d) (ho : toOrdinal d < maxOrdinal) :
    isValid (nextDay d) ∧ toOrdinal (nextDay d) = toOrdinal d + 1 := by
  obtain ⟨y, m, dd⟩ := d
  rw [isValid_mk] at hv
  obtain ⟨h1, h2, h3, h4, h5, h6⟩ := hv
  rw [toOrdinal_mk] at ho
  unfold maxOrdinal at ho
  unfold nextDay
  dsimp only
  split
  next hday =>
    rw [isValid_mk, toOrdinal_mk, toOrdinal_mk]
    exact ⟨⟨h1, h2, h3, h4, by omega, hday⟩, by omega⟩
  next hday =>
    have hdd : dd = daysInMonth y m := by omega
    split
    next hmonth =>
      have hsucc := daysBeforeMonth_succ y m h3
      rw [isValid_mk, toOrdinal_mk, toOrdinal_mk]
      exact ⟨⟨h1, h2, by omega, hmonth, by omega, daysInMonth_pos y (m + 1)⟩, by omega⟩
    next hmonth =>
      have hm12 : m = 12 := by omega
      subst hm12
      rw [daysInMonth_twelve] at hdd
      subst hdd
      have hdbm : daysBeforeMonth (y + 1) 1 = 0 := rfl
      have hd31 : daysInMonth (y + 1) 1 = 31 := rfl
      rw [isValid_mk, toOrdinal_mk, toOrdinal_mk, hdbm, hd31]
      cases hL : isLeap y with
      | true =>
        have hsucc := daysBeforeYear_succ_leap y h1 hL
        have htw := daysBeforeMonth_twelve_leap y hL
        have hy9999 : y + 1 ≤ 9999 := by
          by_contra hcon
          have hy : y = 9999 := by omega
          subst hy
          rw [daysBeforeYear_ten_thousand] at hsucc
          omega
        exact ⟨⟨by omega, hy9999, by omega, by omega, by omega, by omega⟩, by omega⟩
      | false =>
        have hsucc := daysBeforeYear_succ_nonleap y h1 hL
        have htw := daysBeforeMonth_twelve_nonleap y hL
        have hy9999 : y + 1 ≤ 9999 := by
          by_contra hcon
          have hy : y = 9999 := by omega
          subst hy
          rw [daysBeforeYear_ten_thousand] at hsucc
          omega
        exact ⟨⟨by omega, hy9999, by omega, by omega, by omega, by omega⟩, by omega⟩

theorem subDays_spec (d : CalendarDate) (k : Nat) (hv : isValid d)
    (hk : k < toOrdinal d) :
    isValid (subDays d k) ∧ toOrdinal (subDays d k) = toOrdinal d - k := by
  induction k with
  | zero => exact ⟨hv, rfl⟩
  | succ k ih =>
    obtain ⟨ihv, iho⟩ := ih (by omega)
    have hstep := prevDay_spec (subDays d k) ihv (by omega)
    refine ⟨hstep.1, ?_⟩
    show toOrdinal (prevDay (subDays d k)) = toOrdinal d - (k + 1)
    omega

theorem addDays_spec (d : CalendarDate) (k : Nat) (hv : isValid d)
    (hk : toOrdinal d + k ≤ maxOrdinal) :
    isValid (addDays d k) ∧ toOrdinal (addDays d k) = toOrdinal d + k := by
  induction k with
  | zero => exact ⟨hv, rfl⟩
  | succ k ih =>
    obtain ⟨ihv, iho⟩ := ih (by omega)
    have hstep := nextDay_spec (addDays d k) ihv (by omega)
    refine ⟨hstep.1, ?_⟩
    show toOrdinal (nextDay (addDays d k)) = toOrdinal d + (k + 1)
    omega

theorem pyWeekday_lt_seven (d : CalendarDate) : pyWeekday d < 7 :=
  Nat.mod_lt _ (by omega)

theorem pyWeekday_lt_toOrdinal (d : CalendarDate) (hv : isValid d) :
    pyWeekday d < toOrdinal d := by
  have h1 := toOrdinal_pos d hv
  unfold pyWeekday
  omega

/-- The Monday computation stays valid and lands `weekday` days back. -/
theorem mondayDate_spec (d : CalendarDate) (hv : isValid d) :
    isValid (mondayDate d) ∧ toOrdinal (mondayDate d) = toOrdinal d - pyWeekday d :=
  subDays_spec d (pyWeekday d) hv (pyWeekday_lt_toOrdinal d hv)

/-- The Monday computation lands on a Monday. -/
theorem pyWeekday_mondayDate (d : CalendarDate) (hv : isValid d) :
    pyWeekday (mondayDate d) = 0 := by
  have h1 := toOrdinal_pos d hv
  have h2 := (mondayDate_spec d hv).2
  unfold pyWeekday at h2 ⊢
  omega

/-! ## Parsing and formatting lemmas -/

theorem takeDigits_cons_digit (c : Char) (cs : List Char) (h : isDigitChar c = true) :
    takeDigits (c :: cs) = (c :: (takeDigits cs).1, (takeDigits cs).2) := by
  simp only [takeDigits]
  rw [if_pos h]

theorem takeDigits_cons_nondigit (c : Char) (cs : List Char) (h : isDigitChar c = false) :
    takeDigits (c :: cs) = ([], c :: cs) := by
  simp only [takeDigits]
  rw [if_neg (by simp [h])]

theorem isDigitChar_hyphen : isDigitChar '-' = false := rfl

theorem isDigitChar_digitToChar_mod (n : Nat) :
    isDigitChar (digitToChar (n % 10)) = true := by
  have h : n % 10 < 10 := Nat.mod_lt _ (by omega)
  generalize n % 10 = k at h
  interval_cases k <;> rfl

theorem charToDigit_digitToChar_mod (n : Nat) :
    charToDigit (digitToChar (n % 10)) = n % 10 := by
  have h : n % 10 < 10 := Nat.mod_lt _ (by omega)
  generalize n % 10 = k at h
  interval_cases k <;> rfl

theorem digitsVal_four (a b c d : Char) :
    digitsVal [a, b, c, d] =
      ((charToDigit a * 10 + charToDigit b) * 10 + charToDigit c) * 10 + charToDigit d := by
  unfold digitsVal
  simp [List.foldl]

theorem digitsVal_two (a b : Char) :
    digitsVal [a, b] = charToDigit a * 10 + charToDigit b := by
  unfold digitsVal
  simp [List.foldl]

/-- `parseYMD` on a fully zero-padded digit list succeeds. -/
theorem parseYMD_digits (a b c d e f g h : Char)
    (ha : isDigitChar a = true) (hb : isDigitChar b = true) (hc : isDigitChar c = true)
    (hd : isDigitChar d = true) (he : isDigitChar e = true) (hf : isDigitChar f = true)
    (hg : isDigitChar g = true) (hh : isDigitChar h = true) :
    parseYMD [a, b, c, d, '-', e, f, '-', g, h] =
      some (digitsVal [a, b, c, d], digitsVal [e, f], digitsVal [g, h]) := by
  unfold parseYMD
  rw [takeDigits_cons_digit _ _ ha, takeDigits_cons_digit _ _ hb,
    takeDigits_cons_digit _ _ hc, takeDigits_cons_digit _ _ hd,
    takeDigits_cons_nondigit _ _ isDigitChar_hyphen]
  dsimp only
  rw [if_pos rfl]
  rw [takeDigits_cons_digit _ _ he, takeDigits_cons_digit _ _ hf,
    takeDigits_cons_nondigit _ _ isDigitChar_hyphen]
  dsimp only
  rw [if_pos rfl]
  rw [takeDigits_cons_digit _ _ hg, takeDigits_cons_digit _ _ hh]
  have htd : takeDigits ([] : List Char) = ([], []) := rfl
  rw [htd]
  dsimp only
  rw [if_pos (by refine ⟨rfl, ?_, ?_, ?_, ?_, ?_⟩ <;> simp)]

/-- A valid date whose year has four digits (so that the unpadded `%Y`
output re-matches `strptime`'s `\d\d\d\d`) parses back to itself.  For
years below 1000 the round trip genuinely fails in the program. -/
theorem parseDate_formatDate (d : CalendarDate) (hv : isValid d)
    (hy4 : 1000 ≤ d.year) :
    parseDate (formatDate d) = some d := by
  obtain ⟨y, m, dd⟩ := d
  rw [isValid_mk] at hv
  obtain ⟨h1, h2, h3, h4, h5, h6⟩ := hv
  dsimp only at hy4
  have hyc : yearChars y = [digitToChar (y / 1000 % 10), digitToChar (y / 100 % 10),
      digitToChar (y / 10 % 10), digitToChar (y % 10)] := by
    unfold yearChars
    rw [if_neg (by omega), if_neg (by omega), if_neg (by omega)]
  unfold parseDate formatDate
  dsimp only
  rw [hyc]
  have htl : (String.mk ([digitToChar (y / 1000 % 10), digitToChar (y / 100 % 10),
      digitToChar (y / 10 % 10), digitToChar (y % 10)] ++ ['-',
      digitToChar (m / 10 % 10), digitToChar (m % 10), '-',
      digitToChar (dd / 10 % 10), digitToChar (dd % 10)])).toList =
      [digitToChar (y / 1000 % 10), digitToChar (y / 100 % 10),
      digitToChar (y / 10 % 10), digitToChar (y % 10), '-',
      digitToChar (m / 10 % 10), digitToChar (m % 10), '-',
      digitToChar (dd / 10 % 10), digitToChar (dd % 10)] := rfl
  rw [htl]
  rw [parseYMD_digits _ _ _ _ _ _ _ _ (isDigitChar_digitToChar_mod _)
    (isDigitChar_digitToChar_mod _) (isDigitChar_digitToChar_mod _)
    (isDigitChar_digitToChar_mod _) (isDigitChar_digitToChar_mod _)
    (isDigitChar_digitToChar_mod _) (isDigitChar_digitToChar_mod _)
    (isDigitChar_digitToChar_mod _)]
  rw [digitsVal_four, digitsVal_two, digitsVal_two]
  rw [charToDigit_digitToChar_mod, charToDigit_digitToChar_mod,
    charToDigit_digitToChar_mod, charToDigit_digitToChar_mod,
    charToDigit_digitToChar_mod, charToDigit_digitToChar_mod,
    charToDigit_digitToChar_mod, charToDigit_digitToChar_mod]
  have hy : (((y / 1000 % 10) * 10 + y / 100 % 10) * 10 + y / 10 % 10) * 10 + y % 10 = y := by
    omega
  have hm : (m / 10 % 10) * 10 + m % 10 = m := by omega
  have hd31 : dd ≤ 31 := by
    have h7 := h6
    unfold daysInMonth at h7
    split at h7
    · split at h7 <;> omega
    · split at h7 <;> omega
  have hdd : (dd / 10 % 10) * 10 + dd % 10 = dd := by omega
  rw [hy, hm, hdd]
  dsimp only
  rw [if_pos]
  rw [isValid_mk]
  exact ⟨h1, h2, h3, h4, h5, h6⟩

/-- A successful parse yields a valid date. -/
theorem parseDate_isValid (s : String) (d : CalendarDate) (h : parseDate s = some d) :
    isValid d := by
  unfold parseDate at h
  cases hp : parseYMD s.toList with
  | none => rw [hp] at h; exact absurd h (by simp)
  | some ymd =>
    obtain ⟨y, m, dd⟩ := ymd
    rw [hp] at h
    dsimp only at h
    split at h
    next hvalid => cases h; exact hvalid
    next => exact absurd h (by simp)

/-! ## The tool-call relay of `src/simple_ai_tools.py` (lines 133-239)

The remote endpoint is modelled by its two observable responses: the two
`client.messages.create` calls are parameters `round1` and `round2` of type
`Except String ApiResponse`, where `Except.error e` models an exception with
text `e` raised by the network call (caught by the `except` at the bottom of
`chat_with_claude`). -/

/-- One content block of a remote response: either text or a tool-invocation
request (`id`, `name`, `input`). -/
inductive ContentBlock where
  | text (s : String)
  | toolUse (id name : String) (input : List (String × String))
deriving DecidableEq

/-- A remote response: ordered content blocks plus the stop indicator. -/
structure ApiResponse where
  content : List ContentBlock
  stop_reason : String
deriving DecidableEq

/-- One `tool_result` dictionary: the originating invocation identifier and
the result text. -/
structure ToolResult where
  tool_use_id : String
  content : String
deriving DecidableEq

/-- The content of one conversation turn: plain user text, assistant content
blocks, or a list of tool results. -/
inductive MessageContent where
  | text (s : String)
  | blocks (bs : List ContentBlock)
  | results (rs : List ToolResult)
deriving DecidableEq

/-- One conversation turn: a role tag and content. -/
structure Message where
  role : String
  content : MessageContent
deriving DecidableEq

/-- The keys of the `tool_functions` mapping (lines 134-139). -/
def tool_names : List String :=
  ["get_monday", "get_current_date", "get_week_info", "get_day_of_week"]

/-- `func(**tool_input)` for a registered tool: checks the keyword arguments
against the function signature (`TypeError`, modelled as `Except.error`, on a
mismatch) and calls the tool.  `today` stands for `datetime.now()`. -/
def callFunc (today name : String) (input : List (String × String)) :
    Except String String :=
  if name = "get_monday" then
    match input with
    | [] => Except.error "get_monday() missing 1 required positional argument: date_str"
    | [(k, v)] =>
      if k = "date_str" then get_monday v
      else Except.error ("get_monday() got an unexpected keyword argument " ++ k)
    | _ => Except.error "get_monday() got unexpected keyword arguments"
  else if name = "get_current_date" then
    match input with
    | [] => Except.ok (get_current_date today)
    | (k, _) :: _ =>
      Except.error ("get_current_date() got an unexpected keyword argument " ++ k)
  else if name = "get_week_info" then
    match input with
    | [] => Except.error "get_week_info() missing 1 required positional argument: date_str"
    | [(k, v)] =>
      if k = "date_str" then get_week_info v
      else Except.error ("get_week_info() got an unexpected keyword argument " ++ k)
    | _ => Except.error "get_week_info() got unexpected keyword arguments"
  else if name = "get_day_of_week" then
    match input with
    | [] => Except.error "get_day_of_week() missing 1 required positional argument: date_str"
    | [(k, v)] =>
      if k = "date_str" then get_day_of_week v
      else Except.error ("get_day_of_week() got an unexpected keyword argument " ++ k)
    | _ => Except.error "get_day_of_week() got unexpected keyword arguments"
  else Except.error ("name " ++ name ++ " is not defined")

/-- `execute_tool` of `src/simple_ai_tools.py` (lines 141-155): unknown names
produce `"Unknown tool: <name>"`; any exception of the call is caught and
becomes `"Error executing <name>: <message>"`. -/
def execute_tool (today tool_name : String) (tool_input : List (String × String)) :
    String :=
  if tool_name ∈ tool_names then
    match callFunc today tool_name tool_input with
    | Except.ok r => r
    | Except.error e => "Error executing " ++ tool_name ++ ": " ++ e
  else "Unknown tool: " ++ tool_name

/-- The tool-invocation requests of a response's content, in order of
appearance: `(id, name, input)` triples. -/
def toolUses (bs : List ContentBlock) : List (String × String × List (String × String)) :=
  bs.filterMap fun b =>
    match b with
    | ContentBlock.toolUse id name input => some (id, name, input)
    | ContentBlock.text _ => none

/-- Concatenation of the text blocks of a response's content. -/
def textConcat (bs : List ContentBlock) : String :=
  bs.foldl (fun acc b =>
    match b with
    | ContentBlock.text t => acc ++ t
    | ContentBlock.toolUse _ _ _ => acc) ""

/-- `chat_with_claude` of `src/simple_ai_tools.py` (lines 157-239), returning
`(response_text, tools_used, updated_conversation_history)`.  `round1` and
`round2` model the outcomes of the two `client.messages.create` calls; the
`Except.error` branches are the paths through the final `except Exception`. -/
def chat_with_claude (today user_message : String)
    (conversation_history : List Message)
    (round1 round2 : Except String ApiResponse) :
    String × List String × List Message :=
  let messages := conversation_history ++ [⟨"user", MessageContent.text user_message⟩]
  match round1 with
  | Except.error e => ("Error communicating with Claude: " ++ e, [], messages)
  | Except.ok response =>
    let messages := messages ++ [⟨"assistant", MessageContent.blocks response.content⟩]
    if response.stop_reason = "tool_use" then
      let uses := toolUses response.content
      let tools_used := uses.map fun u => u.2.1
      let tool_results : List ToolResult :=
        uses.map fun u => ⟨u.1, execute_tool today u.2.1 u.2.2⟩
      let messages := messages ++ [⟨"user", MessageContent.results tool_results⟩]
      match round2 with
      | Except.error e => ("Error communicating with Claude: " ++ e, [], messages)
      | Except.ok final_response =>
        (textConcat final_response.content, tools_used,
          messages ++ [⟨"assistant", MessageContent.blocks final_response.content⟩])
    else
      (textConcat response.content, [], messages)

/-- The display decision of `main` (line 307): a used-tools line is printed
only when `tools_used` is non-empty. -/
def shows_tools_line (tools_used : List String) : Bool :=
  !tools_used.isEmpty

/-! ## Behaviour of the tool functions on parsed dates -/

/-- On a parsed date, `get_monday` returns the formatted Monday (the
subtraction never leaves the calendar range). -/
theorem get_monday_ok (s : String) (d : CalendarDate) (h : parseDate s = some d) :
    get_monday s = Except.ok (formatDate (mondayDate d)) := by
  have hv := parseDate_isValid s d h
  unfold get_monday
  rw [h]
  dsimp only
  unfold pyDateSub
  rw [if_pos (pyWeekday_lt_toOrdinal d hv)]
  rfl

/-- The week loop succeeds and renders one line per index when every
addition stays within the calendar range. -/
theorem weekLines_all (monday : CalendarDate) (l : List Nat)
    (h : ∀ i ∈ l, toOrdinal monday + i ≤ maxOrdinal) :
    weekLines monday l =
      some (l.map fun i => day_names.getD i "" ++ ": " ++ formatDate (addDays monday i)) := by
  induction l with
  | nil => rfl
  | cons i rest ih =>
    unfold weekLines
    unfold pyDateAdd
    rw [if_pos (h i (by simp))]
    rw [ih fun j hj => h j (by simp [hj])]
    rfl

/-- On a parsed date whose week fits inside the calendar range,
`get_week_info` returns the seven-line listing. -/
theorem get_week_info_ok (s : String) (d : CalendarDate) (h : parseDate s = some d)
    (hb : toOrdinal (mondayDate d) + 6 ≤ maxOrdinal) :
    get_week_info s = Except.ok ("Week containing " ++ s ++ ":\n" ++
      String.intercalate "\n" ((List.range 7).map fun i =>
        day_names.getD i "" ++ ": " ++ formatDate (addDays (mondayDate d) i))) := by
  have hv := parseDate_isValid s d h
  unfold get_week_info
  rw [h]
  dsimp only
  unfold pyDateSub
  rw [if_pos (pyWeekday_lt_toOrdinal d hv)]
  dsimp only
  rw [show subDays d (pyWeekday d) = mondayDate d from rfl]
  rw [weekLines_all (mondayDate d) (List.range 7)
    fun i hi => by have h7 : i < 7 := List.mem_range.mp hi; omega]

/-! ## The claims -/

/-- C1: for every string parsing as a valid date `d`, `get_monday` returns
the date obtained by subtracting `weekday(d)` days from `d`, where `weekday`
is 0 for Monday through 6 for Sunday; consequently the result falls on a
Monday (`weekday = 0`), is at most `d`, and is fewer than 7 days before `d`. -/
theorem C1_get_monday_correct (s : String) (d : CalendarDate)
    (h : parseDate s = some d) :
    get_monday s = Except.ok (formatDate (mondayDate d)) ∧
    mondayDate d = subDays d (pyWeekday d) ∧
    pyWeekday (mondayDate d) = 0 ∧
    toOrdinal (mondayDate d) ≤ toOrdinal d ∧
    toOrdinal d - toOrdinal (mondayDate d) < 7 := by
  have hv := parseDate_isValid s d h
  have hm := (mondayDate_spec d hv).2
  have hw := pyWeekday_lt_seven d
  exact ⟨get_monday_ok s d h, rfl, pyWeekday_mondayDate d hv, by omega, by omega⟩

/-- Witness for C1 at the spec scenario "2025-07-03" (a Thursday whose
Monday is 2025-06-30). -/
theorem C1_get_monday_correct_witness :
    get_monday "2025-07-03" = Except.ok (formatDate (mondayDate ⟨2025, 7, 3⟩)) ∧
    mondayDate ⟨2025, 7, 3⟩ = subDays ⟨2025, 7, 3⟩ (pyWeekday ⟨2025, 7, 3⟩) ∧
    pyWeekday (mondayDate ⟨2025, 7, 3⟩) = 0 ∧
    toOrdinal (mondayDate ⟨2025, 7, 3⟩) ≤ toOrdinal ⟨2025, 7, 3⟩ ∧
    toOrdinal ⟨2025, 7, 3⟩ - toOrdinal (mondayDate ⟨2025, 7, 3⟩) < 7 :=
  C1_get_monday_correct "2025-07-03" ⟨2025, 7, 3⟩ (by decide)

/-- C2 (amended): for every string parsing as a valid date `d` whose week
does not run past `date.max` (9999-12-31), `get_week_info` renders exactly
the seven consecutive dates starting at the Monday of the week, labelled
"Monday" through "Sunday" in that fixed order; the spec scenario for
"2025-12-25" holds. -/
theorem C2_get_week_info_correct (s : String) (d : CalendarDate)
    (h : parseDate s = some d) (hb : toOrdinal (mondayDate d) + 6 ≤ maxOrdinal) :
    get_week_info s = Except.ok ("Week containing " ++ s ++ ":\n" ++
      String.intercalate "\n" ((List.range 7).map fun i =>
        day_names.getD i "" ++ ": " ++ formatDate (addDays (mondayDate d) i))) ∧
    (∀ i, i ≤ 6 → toOrdinal (addDays (mondayDate d) i) = toOrdinal (mondayDate d) + i) ∧
    toOrdinal (mondayDate d) = toOrdinal d - pyWeekday d ∧
    day_names = ["Monday", "Tuesday", "Wednesday", "Thursday", "Friday", "Saturday", "Sunday"] ∧
    get_week_info "2025-12-25" = Except.ok ("Week containing 2025-12-25:\n" ++
      "Monday: 2025-12-22\nTuesday: 2025-12-23\nWednesday: 2025-12-24\n" ++
      "Thursday: 2025-12-25\nFriday: 2025-12-26\nSaturday: 2025-12-27\nSunday: 2025-12-28") := by
  have hv := parseDate_isValid s d h
  have hvm := (mondayDate_spec d hv).1
  refine ⟨get_week_info_ok s d h hb, ?_, (mondayDate_spec d hv).2, rfl, by rfl⟩
  intro i hi
  exact (addDays_spec (mondayDate d) i hvm (by omega)).2

/-- Witness for C2 at the spec scenario "2025-12-25". -/
theorem C2_get_week_info_correct_witness :
    get_week_info "2025-12-25" = Except.ok ("Week containing 2025-12-25:\n" ++
      "Monday: 2025-12-22\nTuesday: 2025-12-23\nWednesday: 2025-12-24\n" ++
      "Thursday: 2025-12-25\nFriday: 2025-12-26\nSaturday: 2025-12-27\nSunday: 2025-12-28") :=
  (C2_get_week_info_correct "2025-12-25" ⟨2025, 12, 25⟩ (by decide) (by decide)).2.2.2.2

/-- C2 counterexample: "9999-12-31" is a valid date string, but the loop
body `monday + timedelta(days=i)` passes `date.max` at `i = 5`, so
`get_week_info` raises `OverflowError` (not caught by `except ValueError`)
instead of yielding seven entries. -/
theorem C2_get_week_info_overflow :
    parseDate "9999-12-31" = some ⟨9999, 12, 31⟩ ∧
    get_week_info "9999-12-31" = Except.error "date value out of range" :=
  ⟨by decide, by rfl⟩

/-- C3 (amended): for every string parsing as a valid date `d`,
`get_day_of_week` returns the sentence `"<d> is a <name>"`, where `<name>`
is one of the seven English weekday names, selected by `weekday(d)`; for
"2025-07-03" the selected name is "Thursday", and `get_monday` on that
input returns "2025-06-30". -/
theorem C3_get_day_of_week_correct (s : String) (d : CalendarDate)
    (h : parseDate s = some d) :
    get_day_of_week s = Except.ok (s ++ " is a " ++ day_names.getD (pyWeekday d) "") ∧
    day_names.getD (pyWeekday d) "" ∈ day_names ∧
    day_names.getD (pyWeekday ⟨2025, 7, 3⟩) "" = "Thursday" ∧
    get_monday "2025-07-03" = Except.ok "2025-06-30" := by
  refine ⟨?_, ?_, by rfl, by rfl⟩
  · unfold get_day_of_week
    rw [h]
  · have hw := pyWeekday_lt_seven d
    have hlen : pyWeekday d < day_names.length := by
      simp only [day_names, List.length]
      omega
    rw [List.getD_eq_getElem day_names "" hlen]
    exact List.getElem_mem hlen

/-- Witness for C3 at the spec scenario "2025-07-03". -/
theorem C3_get_day_of_week_correct_witness :
    get_day_of_week "2025-07-03" =
      Except.ok ("2025-07-03" ++ " is a " ++ day_names.getD (pyWeekday ⟨2025, 7, 3⟩) "") :=
  (C3_get_day_of_week_correct "2025-07-03" ⟨2025, 7, 3⟩ (by decide)).1

/-- C3 counterexample: `get_day_of_week "2025-07-03"` returns the sentence
"2025-07-03 is a Thursday", not the bare weekday name "Thursday" the claim
states. -/
theorem C3_get_day_of_week_not_bare_name :
    get_day_of_week "2025-07-03" = Except.ok "2025-07-03 is a Thursday" ∧
    ("2025-07-03 is a Thursday" : String) ≠ "Thursday" :=
  ⟨by rfl, by decide⟩

/-- C4 (amended): `get_monday` is idempotent on every valid date string
whose week’s Monday falls in year 1000 or later, so that the unpadded
`strftime` year has four digits and `strptime` re-accepts it. -/
theorem C4_get_monday_idempotent (s m : String) (d : CalendarDate)
    (hparse : parseDate s = some d) (hy : 1000 ≤ (mondayDate d).year)
    (hm : get_monday s = Except.ok m) :
    get_monday m = Except.ok m := by
  have hv := parseDate_isValid s d hparse
  rw [get_monday_ok s d hparse] at hm
  have hmeq : formatDate (mondayDate d) = m := by injection hm
  subst hmeq
  have hvm : isValid (mondayDate d) := (mondayDate_spec d hv).1
  rw [get_monday_ok _ _ (parseDate_formatDate (mondayDate d) hvm hy)]
  have hfix : mondayDate (mondayDate d) = mondayDate d := by
    show subDays (mondayDate d) (pyWeekday (mondayDate d)) = mondayDate d
    rw [pyWeekday_mondayDate d hv]
    rfl
  rw [hfix]

/-- Witness for C4: the Monday of the week of 2025-07-03 is 2025-06-30, and
`get_monday "2025-06-30"` is again "2025-06-30". -/
theorem C4_get_monday_idempotent_witness :
    get_monday "2025-06-30" = Except.ok "2025-06-30" :=
  C4_get_monday_idempotent "2025-07-03" "2025-06-30" ⟨2025, 7, 3⟩ (by decide)
    (by decide) (by rfl)

/-- C4 counterexample: `get_monday "1000-01-01"` returns "999-12-30"
(`strftime` does not zero-pad the year), which `strptime`’s four-digit `%Y`
then rejects, so the second application returns the error string instead of
the same date: idempotence fails. -/
theorem C4_get_monday_not_idempotent :
    parseDate "1000-01-01" = some ⟨1000, 1, 1⟩ ∧
    get_monday "1000-01-01" = Except.ok "999-12-30" ∧
    get_monday "999-12-30" = Except.ok invalidDateMsg ∧
    invalidDateMsg ≠ "999-12-30" :=
  ⟨by decide, by rfl, by rfl, by decide⟩

/-- C6: a tool name outside the static mapping makes `execute_tool` return
`"Unknown tool: <name>"` for every argument mapping (it is a total function,
so nothing is raised), and a tool round always completes: the relay still
appends all four turns of the round. -/
theorem C6_unknown_tool (today name : String) (input : List (String × String))
    (h : name ∉ tool_names) :
    execute_tool today name input = "Unknown tool: " ++ name ∧
    (∀ u hist r f, r.stop_reason = "tool_use" →
      ((chat_with_claude today u hist (Except.ok r) (Except.ok f)).2.2).length =
        hist.length + 4) := by
  constructor
  · unfold execute_tool
    rw [if_neg h]
  · intro u hist r f hstop
    unfold chat_with_claude
    dsimp only
    rw [if_pos hstop]
    dsimp only
    simp [List.length_append]

/-- Witness for C6 at an unregistered tool name. -/
theorem C6_unknown_tool_witness :
    execute_tool "2025-01-01" "make_coffee" [("strength", "double")] =
      "Unknown tool: make_coffee" :=
  (C6_unknown_tool "2025-01-01" "make_coffee" [("strength", "double")] (by decide)).1

/-- C7: for a registered tool, an exception raised by the invocation is
caught per-invocation and becomes `"Error executing <name>: <message>"`;
and the round itself still produces one result per requested invocation
(the full tool-result turn and the final turn are appended). -/
theorem C7_tool_error_caught (today name : String) (input : List (String × String))
    (msg : String) (hmem : name ∈ tool_names)
    (herr : callFunc today name input = Except.error msg) :
    execute_tool today name input = "Error executing " ++ name ++ ": " ++ msg ∧
    (∀ u hist r f, r.stop_reason = "tool_use" →
      (chat_with_claude today u hist (Except.ok r) (Except.ok f)).2.2 =
        hist ++ [⟨"user", MessageContent.text u⟩,
          ⟨"assistant", MessageContent.blocks r.content⟩,
          ⟨"user", MessageContent.results ((toolUses r.content).map fun q =>
            ⟨q.1, execute_tool today q.2.1 q.2.2⟩)⟩,
          ⟨"assistant", MessageContent.blocks f.content⟩]) := by
  constructor
  · unfold execute_tool
    rw [if_pos hmem, herr]
  · intro u hist r f hstop
    unfold chat_with_claude
    dsimp only
    rw [if_pos hstop]
    dsimp only
    simp [List.append_assoc]

/-- Witness for C7: the `OverflowError` escaping
`get_week_info("9999-12-31")` is caught by `execute_tool` and converted. -/
theorem C7_tool_error_caught_witness :
    execute_tool "2025-01-01" "get_week_info" [("date_str", "9999-12-31")] =
      "Error executing get_week_info: date value out of range" :=
  (C7_tool_error_caught "2025-01-01" "get_week_info" [("date_str", "9999-12-31")]
    "date value out of range" (by decide) (by rfl)).1

/-- C8: when the first response signals tool use, the relay returns the
second response text, the executed tool names in request order, and the
history extended by exactly the four turns of the round; the tool-result
turn carries one result per request with the originating identifiers in
request order; the second response is terminal whatever its stop indicator
(no third round); and the scenario request `get_monday(date_str="2025-07-08")`
produces the result "2025-07-07". -/
theorem C8_relay_tool_round (today u : String) (hist : List Message)
    (r f : ApiResponse) (hstop : r.stop_reason = "tool_use") :
    chat_with_claude today u hist (Except.ok r) (Except.ok f) =
      (textConcat f.content,
       (toolUses r.content).map (fun q => q.2.1),
       hist ++ [⟨"user", MessageContent.text u⟩,
         ⟨"assistant", MessageContent.blocks r.content⟩,
         ⟨"user", MessageContent.results ((toolUses r.content).map fun q =>
           ⟨q.1, execute_tool today q.2.1 q.2.2⟩)⟩,
         ⟨"assistant", MessageContent.blocks f.content⟩]) ∧
    ((toolUses r.content).map fun q =>
      (⟨q.1, execute_tool today q.2.1 q.2.2⟩ : ToolResult)).map ToolResult.tool_use_id =
      (toolUses r.content).map (fun q => q.1) ∧
    (∀ s2, chat_with_claude today u hist (Except.ok r) (Except.ok ⟨f.content, s2⟩) =
      chat_with_claude today u hist (Except.ok r) (Except.ok f)) ∧
    execute_tool today "get_monday" [("date_str", "2025-07-08")] = "2025-07-07" := by
  have key : ∀ g : ApiResponse,
      chat_with_claude today u hist (Except.ok r) (Except.ok g) =
        (textConcat g.content,
         (toolUses r.content).map (fun q => q.2.1),
         hist ++ [⟨"user", MessageContent.text u⟩,
           ⟨"assistant", MessageContent.blocks r.content⟩,
           ⟨"user", MessageContent.results ((toolUses r.content).map fun q =>
             ⟨q.1, execute_tool today q.2.1 q.2.2⟩)⟩,
           ⟨"assistant", MessageContent.blocks g.content⟩]) := by
    intro g
    unfold chat_with_claude
    dsimp only
    rw [if_pos hstop]
    simp [List.append_assoc]
  refine ⟨key f, ?_, ?_, by rfl⟩
  · simp [List.map_map, Function.comp]
  · intro s2
    rw [key ⟨f.content, s2⟩, key f]

/-- Witness for C8 at the spec scenario: one `get_monday` request with
`date_str = "2025-07-08"`, identifier "toolu_1". -/
theorem C8_relay_tool_round_witness :
    chat_with_claude "2025-01-01" "monday please" []
      (Except.ok ⟨[ContentBlock.toolUse "toolu_1" "get_monday"
        [("date_str", "2025-07-08")]], "tool_use"⟩)
      (Except.ok ⟨[ContentBlock.text "done"], "end_turn"⟩) =
      ("done", ["get_monday"],
       [⟨"user", MessageContent.text "monday please"⟩,
        ⟨"assistant", MessageContent.blocks [ContentBlock.toolUse "toolu_1" "get_monday"
          [("date_str", "2025-07-08")]]⟩,
        ⟨"user", MessageContent.results [⟨"toolu_1", "2025-07-07"⟩]⟩,
        ⟨"assistant", MessageContent.blocks [ContentBlock.text "done"]⟩]) :=
  ((C8_relay_tool_round "2025-01-01" "monday please" []
    ⟨[ContentBlock.toolUse "toolu_1" "get_monday" [("date_str", "2025-07-08")]], "tool_use"⟩
    ⟨[ContentBlock.text "done"], "end_turn"⟩ (by rfl)).1).trans (by rfl)

/-- C9 (amended): a failing first round makes the relay return the error
text and the history built up to the point of failure, which is the input
history with the user turn appended (not the unchanged pre-turn history);
a failing second round yields the history through the tool-result turn.
In both cases the relay returns an ordinary triple, so the loop continues. -/
theorem C9_relay_failure_history (today u : String) (hist : List Message) :
    (∀ e r2, chat_with_claude today u hist (Except.error e) r2 =
      ("Error communicating with Claude: " ++ e, [],
        hist ++ [⟨"user", MessageContent.text u⟩])) ∧
    (∀ r e, r.stop_reason = "tool_use" →
      chat_with_claude today u hist (Except.ok r) (Except.error e) =
        ("Error communicating with Claude: " ++ e, [],
          hist ++ [⟨"user", MessageContent.text u⟩,
            ⟨"assistant", MessageContent.blocks r.content⟩,
            ⟨"user", MessageContent.results ((toolUses r.content).map fun q =>
              ⟨q.1, execute_tool today q.2.1 q.2.2⟩)⟩])) := by
  constructor
  · intro e r2
    rfl
  · intro r e hstop
    unfold chat_with_claude
    dsimp only
    rw [if_pos hstop]
    simp [List.append_assoc]

/-- Witness for C9: a first-round transport failure, and a second-round
failure after a successfully executed `get_monday` call. -/
theorem C9_relay_failure_history_witness :
    (chat_with_claude "2025-01-01" "hi" [] (Except.error "connection refused")
        (Except.error "x") =
      ("Error communicating with Claude: connection refused", [],
        [⟨"user", MessageContent.text "hi"⟩])) ∧
    (chat_with_claude "2025-01-01" "hi" []
        (Except.ok ⟨[ContentBlock.toolUse "toolu_1" "get_monday"
          [("date_str", "2025-07-08")]], "tool_use"⟩)
        (Except.error "boom") =
      ("Error communicating with Claude: boom", [],
        [⟨"user", MessageContent.text "hi"⟩,
         ⟨"assistant", MessageContent.blocks [ContentBlock.toolUse "toolu_1" "get_monday"
           [("date_str", "2025-07-08")]]⟩,
         ⟨"user", MessageContent.results [⟨"toolu_1", "2025-07-07"⟩]⟩])) :=
  ⟨(C9_relay_failure_history "2025-01-01" "hi" []).1 "connection refused" (Except.error "x"),
   ((C9_relay_failure_history "2025-01-01" "hi" []).2
     ⟨[ContentBlock.toolUse "toolu_1" "get_monday" [("date_str", "2025-07-08")]], "tool_use"⟩
     "boom" (by rfl)).trans (by rfl)⟩

/-- C9 counterexample: after a first-round failure the returned history is
not unchanged from before the failing turn: the user message has been
appended to it. -/
theorem C9_first_round_failure_appends_user :
    chat_with_claude "2025-01-01" "hello" [] (Except.error "connection refused")
        (Except.error "x") =
      ("Error communicating with Claude: connection refused", [],
        [⟨"user", MessageContent.text "hello"⟩]) ∧
    ([⟨"user", MessageContent.text "hello"⟩] : List Message) ≠ [] :=
  ⟨rfl, by decide⟩

/-- C10: whenever either round fails, the tools-used list handed back to the
caller is the empty list (even if tool invocations already ran before a
second-round failure), and `main` prints no used-tools line for an empty
list. -/
theorem C10_failure_empty_tools_used (today u : String) (hist : List Message) :
    (∀ e r2, (chat_with_claude today u hist (Except.error e) r2).2.1 = []) ∧
    (∀ r e, (chat_with_claude today u hist (Except.ok r) (Except.error e)).2.1 = []) ∧
    (chat_with_claude today u hist
      (Except.ok ⟨[ContentBlock.toolUse "toolu_1" "get_monday"
        [("date_str", "2025-07-08")]], "tool_use"⟩)
      (Except.error "boom")).2.1 = [] ∧
    shows_tools_line [] = false := by
  refine ⟨fun e r2 => rfl, ?_, ?_, rfl⟩
  · intro r e
    by_cases hstop : r.stop_reason = "tool_use"
    · simp only [chat_with_claude]
      rw [if_pos hstop]
    · simp only [chat_with_claude]
      rw [if_neg hstop]
  · rfl

end SimpleAiTools
